import Mathlib

/-!
Verification of the go-daq/smbus bus transport (smbus.go).

The transport is embedded shallowly: the Linux i2c-dev kernel interface is
modelled as an explicit state machine `Kern` (currently selected slave
address, per-(address, register) block store, ioctl counters, an event trace,
and failure-injection flags), and each `Conn` method of the Go source is
translated into a Lean function threading that state.  Buffers are `List Nat`
of byte values; Go's `copy` builtin is `goCopy`; the `i2c_smbus_ioctl_data`
struct's fields (rw, command, size class, buffer) are passed to
`Kern.ioctlSMBus` explicitly.
-/

namespace Smbus

/-! ## Constants from the source -/

def i2cSlave : Nat := 0x0703
def i2cSlaveForce : Nat := 0x0706
def i2cFuncs : Nat := 0x0705
def i2cSMBus : Nat := 0x0720

def i2cSMBusWrite : Nat := 0
def i2cSMBusRead : Nat := 1

def i2cSMBusByteData : Nat := 2
def i2cSMBusWordData : Nat := 3
def i2cSMBusBlockData : Nat := 5
def i2cSMBusI2CBlockData : Nat := 8
def i2cSMBusBlockMax : Nat := 32

/-- Errors a transport call can return: the client-side block-size error
`errSMBusBlockDataMax`, or a wrapped syscall errno. -/
inductive Err where
  | blockDataMax : Err
  | sys : Nat → Err
deriving DecidableEq, Repr

/-- `errors.New("smbus: buffer slice too big")` from the source. -/
def errSMBusBlockDataMax : Err := Err.blockDataMax

/-- Observable kernel events: an address-select ioctl, or a transaction
ioctl carrying the address it routes to, the direction, the command byte,
the size class and the wire buffer handed over. -/
inductive Event where
  | select : Nat → Event
  | trans : Option Nat → Nat → Nat → Nat → List Nat → Event
deriving DecidableEq, Repr

/-- Model of the kernel side of one open i2c-dev file descriptor. -/
structure Kern where
  selected : Option Nat
  store : Nat → Nat → List Nat
  selectCount : Nat
  transCount : Nat
  trace : List Event
  failSelect : Bool
  failTrans : Bool

/-- Pad or truncate a byte list to exactly `n` bytes (zero filled). -/
def padTo (n : Nat) (xs : List Nat) : List Nat :=
  xs.take n ++ List.replicate (n - xs.length) 0

/-- Point update of the per-(address, register) block store. -/
def updStore (f : Nat → Nat → List Nat) (a r : Nat) (v : List Nat) :
    Nat → Nat → List Nat :=
  fun a2 r2 => if a2 = a ∧ r2 = r then v else f a2 r2

/-- Go's `copy(dst, src)`: overwrite the prefix of `dst` with
`min |dst| |src|` bytes of `src`, keep the rest of `dst`. -/
def goCopy (dst src : List Nat) : List Nat :=
  src.take (min dst.length src.length) ++ dst.drop (min dst.length src.length)

/-- State after a (successful) `ioctl(fd, I2C_SLAVE, a)`. -/
def afterSelect (k : Kern) (a : Nat) : Kern :=
  { k with selected := some a, selectCount := k.selectCount + 1,
           trace := k.trace ++ [Event.select a] }

/-- State bump common to every transaction ioctl: count it and record the
event (with the address the kernel routes it to). -/
def afterTrans (k : Kern) (rw cmd len : Nat) (w : List Nat) : Kern :=
  { k with transCount := k.transCount + 1,
           trace := k.trace ++ [Event.trans k.selected rw cmd len w] }

/-- `ioctl(fd, I2C_SLAVE, a)`: selects the slave address for later
transactions on this descriptor.  Returns the new kernel state and an
errno on failure (failure injected via `failSelect`). -/
def Kern.ioctlSlave (k : Kern) (a : Nat) : Kern × Option Nat :=
  if k.failSelect then
    ({ k with selectCount := k.selectCount + 1,
              trace := k.trace ++ [Event.select a] }, some 5)
  else (afterSelect k a, none)

/-- Byte width of the non-block size classes. -/
def widthOf (len : Nat) : Nat :=
  if len = i2cSMBusWordData then 2 else 1

/-- `ioctl(fd, I2C_SMBUS, &cmd)`: one synchronous bus transaction.  Returns
the new kernel state, an errno on failure, and the content of the caller's
wire buffer after the call (the kernel writes into it on reads).  Reads
replay the store for the routed (address, register); writes update it.
Block transactions (`I2C_SMBUS_I2C_BLOCK_DATA`) use the wire layout
`[length_byte, data...]`. -/
def Kern.ioctlSMBus (k : Kern) (rw cmd len : Nat) (wire : List Nat) :
    Kern × Option Nat × List Nat :=
  let k1 := afterTrans k rw cmd len wire
  if k.failTrans then (k1, some 5, wire)
  else
    match k.selected with
    | none => (k1, some 6, wire)
    | some a =>
      if len = i2cSMBusI2CBlockData then
        match wire with
        | [] => (k1, some 22, wire)
        | n :: rest =>
          if rw = i2cSMBusRead then
            (k1, none, n :: padTo n (k.store a cmd))
          else
            ({ k1 with store := updStore k1.store a cmd (rest.take n) }, none, wire)
      else
        if rw = i2cSMBusRead then
          (k1, none, padTo (widthOf len) (k.store a cmd))
        else
          ({ k1 with store := updStore k1.store a cmd (wire.take (widthOf len)) },
           none, wire)

/-- A `Conn` owns one open bus file descriptor; its observable state is the
kernel state of that descriptor. -/
abbrev Conn := Kern

/-- `func (c *Conn) addr(addr uint8) error`: select the slave address. -/
def Conn.addr (c : Conn) (a : Nat) : Conn × Option Err :=
  match Kern.ioctlSlave c a with
  | (c1, none) => (c1, none)
  | (c1, some e) => (c1, some (Err.sys e))

/-- `func (c *Conn) SetAddr(addr uint8) error`. -/
def Conn.SetAddr (c : Conn) (a : Nat) : Conn × Option Err :=
  Conn.addr c a

/-- `func (c *Conn) ReadReg(addr, reg uint8) (uint8, error)`. -/
def Conn.ReadReg (c : Conn) (addr reg : Nat) : Conn × Option Err × Nat :=
  match Conn.addr c addr with
  | (c1, some e) => (c1, some e, 0)
  | (c1, none) =>
    let r := Kern.ioctlSMBus c1 i2cSMBusRead reg i2cSMBusByteData [0]
    (r.1, r.2.1.map Err.sys, r.2.2.headD 0)

/-- `func (c *Conn) WriteReg(addr, reg, v uint8) error`. -/
def Conn.WriteReg (c : Conn) (addr reg v : Nat) : Conn × Option Err :=
  match Conn.addr c addr with
  | (c1, some e) => (c1, some e)
  | (c1, none) =>
    let r := Kern.ioctlSMBus c1 i2cSMBusWrite reg i2cSMBusByteData [v % 256]
    (r.1, r.2.1.map Err.sys)

/-- `func (c *Conn) ReadWord(addr, reg uint8) (uint16, error)`: the two
bytes the kernel writes are read back little-endian, un-reordered. -/
def Conn.ReadWord (c : Conn) (addr reg : Nat) : Conn × Option Err × Nat :=
  match Conn.addr c addr with
  | (c1, some e) => (c1, some e, 0)
  | (c1, none) =>
    let r := Kern.ioctlSMBus c1 i2cSMBusRead reg i2cSMBusWordData [0, 0]
    (r.1, r.2.1.map Err.sys, r.2.2.headD 0 + 256 * (r.2.2.drop 1).headD 0)

/-- `func (c *Conn) WriteWord(addr, reg uint8, v uint16) error`. -/
def Conn.WriteWord (c : Conn) (addr reg v : Nat) : Conn × Option Err :=
  match Conn.addr c addr with
  | (c1, some e) => (c1, some e)
  | (c1, none) =>
    let r := Kern.ioctlSMBus c1 i2cSMBusWrite reg i2cSMBusWordData
        [v % 256, v / 256 % 256]
    (r.1, r.2.1.map Err.sys)

/-- `func (c *Conn) ReadBlockData(addr, reg uint8, buf []byte) error`.
Returns the new state, the error, and the content of the caller's `buf`
after the call (the Go code mutates `buf` only via the final `copy`). -/
def Conn.ReadBlockData (c : Conn) (addr reg : Nat) (buf : List Nat) :
    Conn × Option Err × List Nat :=
  if buf.length > i2cSMBusBlockMax then (c, some errSMBusBlockDataMax, buf)
  else
    match Conn.addr c addr with
    | (c1, some e) => (c1, some e, buf)
    | (c1, none) =>
      let data := buf.length % 256 :: List.replicate buf.length 0
      let r := Kern.ioctlSMBus c1 i2cSMBusRead reg i2cSMBusI2CBlockData data
      match r.2.1 with
      | some e => (r.1, some (Err.sys e), buf)
      | none => (r.1, none, goCopy buf ((r.2.2.drop 1).take buf.length))

/-- `func (c *Conn) WriteBlockData(addr, reg uint8, buf []byte) error`.
The third component is the content of the caller's `buf` after the call:
the Go code only reads `buf` (into the freshly allocated `data`), so it is
returned unchanged on every path. -/
def Conn.WriteBlockData (c : Conn) (addr reg : Nat) (buf : List Nat) :
    Conn × Option Err × List Nat :=
  if buf.length > i2cSMBusBlockMax then (c, some errSMBusBlockDataMax, buf)
  else
    match Conn.addr c addr with
    | (c1, some e) => (c1, some e, buf)
    | (c1, none) =>
      let data := buf.length % 256 :: buf
      let r := Kern.ioctlSMBus c1 i2cSMBusWrite reg i2cSMBusI2CBlockData data
      (r.1, r.2.1.map Err.sys, buf)

/-- Kernel state of a freshly opened i2c-dev descriptor: nothing selected,
empty store, no ioctl issued yet. -/
def freshKern (fs ft : Bool) : Kern :=
  { selected := none, store := fun _ _ => [], selectCount := 0,
    transCount := 0, trace := [], failSelect := fs, failTrans := ft }

/-- Host environment for the open calls: whether the device file
`/dev/i2c-N` can be opened, the injected ioctl failures, and how many file
handles are currently held open. -/
structure Sys where
  devOk : Bool
  failSelect : Bool
  failTrans : Bool
  openCount : Nat

/-- `func OpenFile(bus int) (*Conn, error)`: open `/dev/i2c-<bus>`; no
address is selected on the new descriptor. -/
def OpenFile (s : Sys) (bus : Nat) : Sys × Option Conn :=
  if s.devOk then
    ({ s with openCount := s.openCount + 1 },
     some (freshKern s.failSelect s.failTrans))
  else (s, none)

/-- `func Open(bus int, addr uint8) (*Conn, error)`: open `/dev/i2c-<bus>`
then select `addr`.  On ioctl failure the Go code returns `nil, err`
without closing `f`, so the open count stays incremented. -/
def Open (s : Sys) (bus addr : Nat) : Sys × Option Conn :=
  if s.devOk then
    let s1 := { s with openCount := s.openCount + 1 }
    match Kern.ioctlSlave (freshKern s.failSelect s.failTrans) addr with
    | (k1, none) => (s1, some k1)
    | (_, some _) => (s1, none)
  else (s, none)

/-! ## Helper lemmas -/

theorem addr_ok (c : Conn) (a : Nat) (h : c.failSelect = false) :
    Conn.addr c a = (afterSelect c a, none) := by
  simp [Conn.addr, Kern.ioctlSlave, h]

theorem ioctlSMBus_trace (k : Kern) (rw cmd len : Nat) (w : List Nat) :
    (Kern.ioctlSMBus k rw cmd len w).1.trace =
      k.trace ++ [Event.trans k.selected rw cmd len w] := by
  unfold Kern.ioctlSMBus
  repeat' split
  all_goals simp [afterTrans]

theorem ioctlSMBus_transCount (k : Kern) (rw cmd len : Nat) (w : List Nat) :
    (Kern.ioctlSMBus k rw cmd len w).1.transCount = k.transCount + 1 := by
  unfold Kern.ioctlSMBus
  repeat' split
  all_goals simp [afterTrans]

theorem readBlockData_cases (c : Conn) (addr reg : Nat) (buf : List Nat) :
    (Conn.ReadBlockData c addr reg buf).2.2 = buf ∨
    (Conn.ReadBlockData c addr reg buf).2.1 = none := by
  unfold Conn.ReadBlockData
  split
  · simp
  · split
    · simp
    · rename_i x c1 hA
      cases hk : (Kern.ioctlSMBus c1 i2cSMBusRead reg i2cSMBusI2CBlockData
          (buf.length % 256 :: List.replicate buf.length 0)).2.1 <;> simp [hk]

theorem length_padTo (n : Nat) (xs : List Nat) : (padTo n xs).length = n := by
  simp only [padTo, List.length_append, List.length_take, List.length_replicate]
  omega

theorem take_padTo (n : Nat) (xs : List Nat) : (padTo n xs).take n = padTo n xs := by
  have h := length_padTo n xs
  calc (padTo n xs).take n
      = (padTo n xs).take (padTo n xs).length := by rw [h]
    _ = padTo n xs := List.take_length _

theorem padTo_self (xs : List Nat) : padTo xs.length xs = xs := by
  simp [padTo]

theorem goCopy_eq_of_length (dst src : List Nat) (h : src.length = dst.length) :
    goCopy dst src = src := by
  unfold goCopy
  rw [← h, Nat.min_self, List.take_length]
  have h2 : dst.drop src.length = [] := by
    rw [h]
    exact List.drop_length dst
  rw [h2, List.append_nil]

theorem updStore_self (f : Nat → Nat → List Nat) (a r : Nat) (v : List Nat) :
    updStore f a r v a r = v := by
  simp [updStore]

theorem addr_fail (c : Conn) (a : Nat) (h : c.failSelect = true) :
    Conn.addr c a =
      ({ c with selectCount := c.selectCount + 1,
                trace := c.trace ++ [Event.select a] }, some (Err.sys 5)) := by
  simp [Conn.addr, Kern.ioctlSlave, h]

theorem ioctlSMBus_fail (k : Kern) (rw cmd len : Nat) (w : List Nat)
    (h : k.failTrans = true) :
    Kern.ioctlSMBus k rw cmd len w = (afterTrans k rw cmd len w, some 5, w) := by
  simp [Kern.ioctlSMBus, h]

theorem ioctlSMBus_blockRead_out (k : Kern) (a cmd n : Nat) (rest : List Nat)
    (ht : k.failTrans = false) (hsel : k.selected = some a) :
    (Kern.ioctlSMBus k i2cSMBusRead cmd i2cSMBusI2CBlockData (n :: rest)).2.2 =
      n :: padTo n (k.store a cmd) := by
  simp [Kern.ioctlSMBus, ht, hsel, i2cSMBusRead, i2cSMBusI2CBlockData]

theorem readReg_state (c : Conn) (a reg : Nat) (hs : c.failSelect = false) :
    (Conn.ReadReg c a reg).1 =
      (Kern.ioctlSMBus (afterSelect c a) i2cSMBusRead reg i2cSMBusByteData [0]).1 := by
  unfold Conn.ReadReg
  rw [addr_ok c a hs]

theorem writeReg_state (c : Conn) (a reg v : Nat) (hs : c.failSelect = false) :
    (Conn.WriteReg c a reg v).1 =
      (Kern.ioctlSMBus (afterSelect c a) i2cSMBusWrite reg i2cSMBusByteData
        [v % 256]).1 := by
  unfold Conn.WriteReg
  rw [addr_ok c a hs]

theorem readWord_state (c : Conn) (a reg : Nat) (hs : c.failSelect = false) :
    (Conn.ReadWord c a reg).1 =
      (Kern.ioctlSMBus (afterSelect c a) i2cSMBusRead reg i2cSMBusWordData
        [0, 0]).1 := by
  unfold Conn.ReadWord
  rw [addr_ok c a hs]

theorem writeWord_state (c : Conn) (a reg v : Nat) (hs : c.failSelect = false) :
    (Conn.WriteWord c a reg v).1 =
      (Kern.ioctlSMBus (afterSelect c a) i2cSMBusWrite reg i2cSMBusWordData
        [v % 256, v / 256 % 256]).1 := by
  unfold Conn.WriteWord
  rw [addr_ok c a hs]

theorem writeBlockData_state (c : Conn) (a reg : Nat) (buf : List Nat)
    (hif : ¬ buf.length > i2cSMBusBlockMax) (hs : c.failSelect = false) :
    (Conn.WriteBlockData c a reg buf).1 =
      (Kern.ioctlSMBus (afterSelect c a) i2cSMBusWrite reg i2cSMBusI2CBlockData
        (buf.length % 256 :: buf)).1 := by
  unfold Conn.WriteBlockData
  rw [if_neg hif, addr_ok c a hs]

theorem readBlockData_state (c : Conn) (a reg : Nat) (buf : List Nat)
    (hif : ¬ buf.length > i2cSMBusBlockMax) (hs : c.failSelect = false) :
    (Conn.ReadBlockData c a reg buf).1 =
      (Kern.ioctlSMBus (afterSelect c a) i2cSMBusRead reg i2cSMBusI2CBlockData
        (buf.length % 256 :: List.replicate buf.length 0)).1 := by
  unfold Conn.ReadBlockData
  rw [if_neg hif, addr_ok c a hs]
  cases hk : (Kern.ioctlSMBus (afterSelect c a) i2cSMBusRead reg
      i2cSMBusI2CBlockData (buf.length % 256 :: List.replicate buf.length 0)).2.1 <;>
    simp [hk]

theorem writeBlockData_ok (c : Conn) (a reg : Nat) (buf : List Nat)
    (h2 : buf.length ≤ 32) (hs : c.failSelect = false) (ht : c.failTrans = false) :
    Conn.WriteBlockData c a reg buf =
      ({ afterTrans (afterSelect c a) i2cSMBusWrite reg i2cSMBusI2CBlockData
           (buf.length % 256 :: buf) with
         store := updStore c.store a reg buf }, none, buf) := by
  have hm : buf.length % 256 = buf.length := Nat.mod_eq_of_lt (by omega)
  have hif : ¬ buf.length > i2cSMBusBlockMax := by
    simp only [i2cSMBusBlockMax]
    omega
  unfold Conn.WriteBlockData
  rw [if_neg hif, addr_ok c a hs]
  simp [Kern.ioctlSMBus, afterSelect, afterTrans, ht, hm, i2cSMBusWrite,
        i2cSMBusRead, i2cSMBusI2CBlockData]

theorem readBlockData_ok (c : Conn) (a reg : Nat) (buf : List Nat)
    (h2 : buf.length ≤ 32) (hs : c.failSelect = false) (ht : c.failTrans = false) :
    Conn.ReadBlockData c a reg buf =
      (afterTrans (afterSelect c a) i2cSMBusRead reg i2cSMBusI2CBlockData
         (buf.length % 256 :: List.replicate buf.length 0),
       none, padTo buf.length (c.store a reg)) := by
  have hm : buf.length % 256 = buf.length := Nat.mod_eq_of_lt (by omega)
  have hif : ¬ buf.length > i2cSMBusBlockMax := by
    simp only [i2cSMBusBlockMax]
    omega
  unfold Conn.ReadBlockData
  rw [if_neg hif, addr_ok c a hs]
  simp [Kern.ioctlSMBus, afterSelect, afterTrans, ht, hm, i2cSMBusWrite,
        i2cSMBusRead, i2cSMBusI2CBlockData, take_padTo, goCopy_eq_of_length,
        length_padTo]

/-! ## Claims -/

/-- C1: for `len(buf) > 32`, both `ReadBlockData` and `WriteBlockData`
return `errSMBusBlockDataMax` and issue no I/O at all: the kernel state is
returned unchanged, so in particular the select and transaction counters
do not move. -/
theorem blockData_oversize_no_io (c : Conn) (addr reg : Nat) (buf : List Nat)
    (h : buf.length > 32) :
    Conn.ReadBlockData c addr reg buf = (c, some errSMBusBlockDataMax, buf) ∧
    Conn.WriteBlockData c addr reg buf = (c, some errSMBusBlockDataMax, buf) ∧
    (Conn.ReadBlockData c addr reg buf).1.transCount = c.transCount ∧
    (Conn.ReadBlockData c addr reg buf).1.selectCount = c.selectCount ∧
    (Conn.WriteBlockData c addr reg buf).1.transCount = c.transCount ∧
    (Conn.WriteBlockData c addr reg buf).1.selectCount = c.selectCount := by
  have hr : Conn.ReadBlockData c addr reg buf = (c, some errSMBusBlockDataMax, buf) := by
    simp [Conn.ReadBlockData, i2cSMBusBlockMax, h]
  have hw : Conn.WriteBlockData c addr reg buf = (c, some errSMBusBlockDataMax, buf) := by
    simp [Conn.WriteBlockData, i2cSMBusBlockMax, h]
  exact ⟨hr, hw, by rw [hr], by rw [hr], by rw [hw], by rw [hw]⟩

/-- Witness for C1 at a 33-byte buffer on a fresh kernel (counters at 0). -/
theorem blockData_oversize_no_io_holds :
    (List.replicate 33 0).length > 32 ∧
    Conn.ReadBlockData (freshKern false false) 0x50 0 (List.replicate 33 0) =
      (freshKern false false, some errSMBusBlockDataMax, List.replicate 33 0) ∧
    Conn.WriteBlockData (freshKern false false) 0x50 0 (List.replicate 33 0) =
      (freshKern false false, some errSMBusBlockDataMax, List.replicate 33 0) :=
  ⟨by decide,
   (blockData_oversize_no_io (freshKern false false) 0x50 0 _ (by decide)).1,
   (blockData_oversize_no_io (freshKern false false) 0x50 0 _ (by decide)).2.1⟩

/-- C10: `WriteBlockData` never modifies the caller's payload buffer: on
every path (size error, select failure, transaction failure or success)
the content of `buf` after the call equals its content before, because the
wire buffer is a freshly allocated copy and only that copy is handed to
the kernel. -/
theorem writeBlockData_frame (c : Conn) (addr reg : Nat) (buf : List Nat) :
    (Conn.WriteBlockData c addr reg buf).2.2 = buf := by
  unfold Conn.WriteBlockData
  repeat' split
  all_goals simp

/-- C6: when a block read fails (any returned error), the caller's buffer
is left completely unchanged: no short count, no partial or zero fill. -/
theorem readBlockData_error_frame (c : Conn) (addr reg : Nat) (buf : List Nat)
    (e : Err) (h : (Conn.ReadBlockData c addr reg buf).2.1 = some e) :
    (Conn.ReadBlockData c addr reg buf).2.2 = buf := by
  rcases readBlockData_cases c addr reg buf with h2 | h2
  · exact h2
  · rw [h2] at h
    cases h

/-- Witness for C6: a kernel whose transaction ioctl fails makes
`ReadBlockData` return a syscall error and leave the buffer as it was. -/
theorem readBlockData_error_frame_holds :
    (Conn.ReadBlockData (freshKern false true) 0x50 0 [1, 2, 3]).2.1 =
      some (Err.sys 5) ∧
    (Conn.ReadBlockData (freshKern false true) 0x50 0 [1, 2, 3]).2.2 =
      [1, 2, 3] :=
  ⟨by decide,
   readBlockData_error_frame (freshKern false true) 0x50 0 [1, 2, 3]
     (Err.sys 5) (by decide)⟩

/-- C2: for `1 ≤ len(buf) ≤ 32`, `WriteBlockData` hands the kernel a
write-direction block transaction whose wire buffer is the caller's
payload prefixed by exactly one length byte:
`[byte(len(buf)), buf...]`, of length `len(buf) + 1`. -/
theorem writeBlockData_wire_layout (c : Conn) (a reg : Nat) (buf : List Nat)
    (h1 : 1 ≤ buf.length) (h2 : buf.length ≤ 32) (hs : c.failSelect = false) :
    (Conn.WriteBlockData c a reg buf).1.trace =
      c.trace ++ [Event.select a,
        Event.trans (some a) i2cSMBusWrite reg i2cSMBusI2CBlockData
          (buf.length :: buf)] ∧
    (buf.length :: buf).length = buf.length + 1 := by
  have hm : buf.length % 256 = buf.length := Nat.mod_eq_of_lt (by omega)
  have hif : ¬ buf.length > i2cSMBusBlockMax := by
    simp only [i2cSMBusBlockMax]
    omega
  refine ⟨?_, by simp⟩
  rw [writeBlockData_state c a reg buf hif hs, ioctlSMBus_trace]
  simp [afterSelect, hm]

/-- Witness for C2 at the spec's concrete scenario: a 4-byte payload
produces the 5-byte wire buffer `0x04 :: payload`. -/
theorem writeBlockData_wire_layout_holds :
    1 ≤ ([0xDE, 0xAD, 0xBE, 0xEF] : List Nat).length ∧
    (Conn.WriteBlockData (freshKern false false) 0x50 0
        [0xDE, 0xAD, 0xBE, 0xEF]).1.trace =
      (freshKern false false).trace ++ [Event.select 0x50,
        Event.trans (some 0x50) i2cSMBusWrite 0 i2cSMBusI2CBlockData
          [4, 0xDE, 0xAD, 0xBE, 0xEF]] :=
  ⟨by decide,
   (writeBlockData_wire_layout (freshKern false false) 0x50 0
      [0xDE, 0xAD, 0xBE, 0xEF] (by decide) (by decide) rfl).1⟩

/-- C3: when `ReadBlockData` succeeds, the caller's buffer receives exactly
`len(buf)` bytes, namely positions 1 through `len(buf)` of the wire buffer
the kernel transaction returned; the length-prefix byte at wire position 0
is dropped and never copied into `buf`. -/
theorem readBlockData_consumes_len_byte (c : Conn) (a reg : Nat) (buf : List Nat)
    (h1 : 1 ≤ buf.length) (h2 : buf.length ≤ 32)
    (hok : (Conn.ReadBlockData c a reg buf).2.1 = none) :
    (Conn.ReadBlockData c a reg buf).2.2 =
      (((Kern.ioctlSMBus ((Conn.addr c a).1) i2cSMBusRead reg
          i2cSMBusI2CBlockData
          (buf.length % 256 :: List.replicate buf.length 0)).2.2).drop 1).take
        buf.length ∧
    ((Conn.ReadBlockData c a reg buf).2.2).length = buf.length := by
  have hm : buf.length % 256 = buf.length := Nat.mod_eq_of_lt (by omega)
  have hif : ¬ buf.length > i2cSMBusBlockMax := by
    simp only [i2cSMBusBlockMax]
    omega
  cases hs : c.failSelect with
  | true =>
    exfalso
    unfold Conn.ReadBlockData at hok
    rw [if_neg hif, addr_fail c a hs] at hok
    simp at hok
  | false =>
    cases ht : c.failTrans with
    | true =>
      exfalso
      unfold Conn.ReadBlockData at hok
      rw [if_neg hif, addr_ok c a hs] at hok
      simp [Kern.ioctlSMBus, afterSelect, ht] at hok
    | false =>
      have hc1 : (Conn.addr c a).1 = afterSelect c a := by rw [addr_ok c a hs]
      rw [readBlockData_ok c a reg buf h2 hs ht, hc1]
      rw [ioctlSMBus_blockRead_out (afterSelect c a) a reg _ _
            (by simp [afterSelect, ht]) (by simp [afterSelect])]
      simp [afterSelect, hm, take_padTo, length_padTo]

/-- Witness for C3 on a succeeding 2-byte read against a fresh kernel. -/
theorem readBlockData_consumes_len_byte_holds :
    (Conn.ReadBlockData (freshKern false false) 0x50 0 [9, 9]).2.1 = none ∧
    ((Conn.ReadBlockData (freshKern false false) 0x50 0 [9, 9]).2.2).length = 2 :=
  ⟨by decide,
   (readBlockData_consumes_len_byte (freshKern false false) 0x50 0 [9, 9]
      (by decide) (by decide) (by decide)).2⟩

/-- C4: against the kernel model that stores block writes per
(address, register) and replays them on reads, `WriteBlockData` of a
payload `p` (`1 ≤ len(p) ≤ 32`) followed by `ReadBlockData` of the same
length at the same address and register succeeds and returns `p`. -/
theorem write_read_roundtrip (c : Conn) (a reg : Nat) (p buf : List Nat)
    (h1 : 1 ≤ p.length) (h2 : p.length ≤ 32) (hb : buf.length = p.length)
    (hs : c.failSelect = false) (ht : c.failTrans = false) :
    (Conn.WriteBlockData c a reg p).2.1 = none ∧
    (Conn.ReadBlockData (Conn.WriteBlockData c a reg p).1 a reg buf).2.1 = none ∧
    (Conn.ReadBlockData (Conn.WriteBlockData c a reg p).1 a reg buf).2.2 = p := by
  rw [writeBlockData_ok c a reg p h2 hs ht]
  rw [readBlockData_ok _ a reg buf (by omega)
        (by simp [afterTrans, afterSelect, hs]) (by simp [afterTrans, afterSelect, ht])]
  simp [afterTrans, afterSelect, updStore_self, hb]
  exact padTo_self p

/-- Witness for C4 at the spec's concrete scenario: write
`[0xDE, 0xAD, 0xBE, 0xEF]`, read 4 bytes back. -/
theorem write_read_roundtrip_holds :
    1 ≤ ([0xDE, 0xAD, 0xBE, 0xEF] : List Nat).length ∧
    (Conn.ReadBlockData
        (Conn.WriteBlockData (freshKern false false) 0x50 0
          [0xDE, 0xAD, 0xBE, 0xEF]).1 0x50 0 [0, 0, 0, 0]).2.2 =
      [0xDE, 0xAD, 0xBE, 0xEF] :=
  ⟨by decide,
   (write_read_roundtrip (freshKern false false) 0x50 0
      [0xDE, 0xAD, 0xBE, 0xEF] [0, 0, 0, 0] (by decide) (by decide) (by decide)
      rfl rfl).2.2⟩

/-- C5: every register operation first issues an address-select for its
`addr` argument and then exactly one transaction ioctl, which the kernel
routes to exactly that address; and after two consecutive selects the next
transaction routes to the second address only. -/
theorem ops_select_then_transact (c : Conn) (a b reg v : Nat) (buf p : List Nat)
    (hs : c.failSelect = false) (hb : buf.length ≤ 32) (hp : p.length ≤ 32) :
    (Conn.ReadReg c a reg).1.trace =
      c.trace ++ [Event.select a,
        Event.trans (some a) i2cSMBusRead reg i2cSMBusByteData [0]] ∧
    (Conn.WriteReg c a reg v).1.trace =
      c.trace ++ [Event.select a,
        Event.trans (some a) i2cSMBusWrite reg i2cSMBusByteData [v % 256]] ∧
    (Conn.ReadWord c a reg).1.trace =
      c.trace ++ [Event.select a,
        Event.trans (some a) i2cSMBusRead reg i2cSMBusWordData [0, 0]] ∧
    (Conn.WriteWord c a reg v).1.trace =
      c.trace ++ [Event.select a,
        Event.trans (some a) i2cSMBusWrite reg i2cSMBusWordData
          [v % 256, v / 256 % 256]] ∧
    (Conn.ReadBlockData c a reg buf).1.trace =
      c.trace ++ [Event.select a,
        Event.trans (some a) i2cSMBusRead reg i2cSMBusI2CBlockData
          (buf.length % 256 :: List.replicate buf.length 0)] ∧
    (Conn.WriteBlockData c a reg p).1.trace =
      c.trace ++ [Event.select a,
        Event.trans (some a) i2cSMBusWrite reg i2cSMBusI2CBlockData
          (p.length % 256 :: p)] ∧
    (Conn.SetAddr (Conn.SetAddr c a).1 b).1.selected = some b ∧
    (Kern.ioctlSMBus (Conn.SetAddr (Conn.SetAddr c a).1 b).1 i2cSMBusRead reg
        i2cSMBusByteData [0]).1.trace =
      c.trace ++ [Event.select a, Event.select b,
        Event.trans (some b) i2cSMBusRead reg i2cSMBusByteData [0]] := by
  have hbif : ¬ buf.length > i2cSMBusBlockMax := by
    simp only [i2cSMBusBlockMax]
    omega
  have hpif : ¬ p.length > i2cSMBusBlockMax := by
    simp only [i2cSMBusBlockMax]
    omega
  have hsa : Conn.SetAddr c a = (afterSelect c a, none) := by
    unfold Conn.SetAddr
    exact addr_ok c a hs
  have hsb : Conn.SetAddr (afterSelect c a) b = (afterSelect (afterSelect c a) b, none) := by
    unfold Conn.SetAddr
    exact addr_ok _ b (by simp [afterSelect, hs])
  refine ⟨?_, ?_, ?_, ?_, ?_, ?_, ?_, ?_⟩
  · rw [readReg_state c a reg hs, ioctlSMBus_trace]
    simp [afterSelect]
  · rw [writeReg_state c a reg v hs, ioctlSMBus_trace]
    simp [afterSelect]
  · rw [readWord_state c a reg hs, ioctlSMBus_trace]
    simp [afterSelect]
  · rw [writeWord_state c a reg v hs, ioctlSMBus_trace]
    simp [afterSelect]
  · rw [readBlockData_state c a reg buf hbif hs, ioctlSMBus_trace]
    simp [afterSelect]
  · rw [writeBlockData_state c a reg p hpif hs, ioctlSMBus_trace]
    simp [afterSelect]
  · rw [hsa]
    simp only
    rw [hsb]
    simp [afterSelect]
  · rw [hsa]
    simp only
    rw [hsb]
    simp only
    rw [ioctlSMBus_trace]
    simp [afterSelect]

/-- Witness for C5: two selects (0x44 then 0x69) followed by one
transaction route the transaction to 0x69 only. -/
theorem ops_select_then_transact_holds :
    (freshKern false false).failSelect = false ∧
    (Kern.ioctlSMBus
        (Conn.SetAddr (Conn.SetAddr (freshKern false false) 0x44).1 0x69).1
        i2cSMBusRead 0x20 i2cSMBusByteData [0]).1.trace =
      (freshKern false false).trace ++ [Event.select 0x44, Event.select 0x69,
        Event.trans (some 0x69) i2cSMBusRead 0x20 i2cSMBusByteData [0]] :=
  ⟨rfl,
   (ops_select_then_transact (freshKern false false) 0x44 0x69 0x20 0x4B [0] [1]
      rfl (by decide) (by decide)).2.2.2.2.2.2.2⟩

/-- C7: the spec's `Open(busID)` (the source's `OpenFile`) returns no
handle when the device file cannot be opened, and on success returns a
handle on which no device address has been selected yet (no address-select
ioctl has been issued). -/
theorem openFile_spec (s : Sys) (bus : Nat) :
    (s.devOk = false → OpenFile s bus = (s, none)) ∧
    (s.devOk = true →
      (OpenFile s bus).2 = some (freshKern s.failSelect s.failTrans) ∧
      (freshKern s.failSelect s.failTrans).selected = none ∧
      (freshKern s.failSelect s.failTrans).selectCount = 0 ∧
      (freshKern s.failSelect s.failTrans).trace = []) := by
  constructor <;> intro h <;> simp [OpenFile, freshKern, h]

/-- Witness for C7: a missing device file yields no handle; an available
one yields a handle with no selected address. -/
theorem openFile_spec_holds :
    OpenFile ⟨false, false, false, 0⟩ 1 = (⟨false, false, false, 0⟩, none) ∧
    (OpenFile ⟨true, false, false, 0⟩ 1).2 = some (freshKern false false) ∧
    (freshKern false false).selected = none :=
  ⟨(openFile_spec ⟨false, false, false, 0⟩ 1).1 rfl,
   ((openFile_spec ⟨true, false, false, 0⟩ 1).2 rfl).1,
   ((openFile_spec ⟨true, false, false, 0⟩ 1).2 rfl).2.1⟩

/-- C8: an empty buffer passes the length check of both block operations:
no `errSMBusBlockDataMax`, and a transaction is issued whose wire buffer
is the single byte `0x00` (a zero length prefix with no payload). -/
theorem blockData_empty_buffer (c : Conn) (a reg : Nat)
    (hs : c.failSelect = false) :
    (Conn.ReadBlockData c a reg []).2.1 ≠ some errSMBusBlockDataMax ∧
    (Conn.ReadBlockData c a reg []).1.trace =
      c.trace ++ [Event.select a,
        Event.trans (some a) i2cSMBusRead reg i2cSMBusI2CBlockData [0]] ∧
    (Conn.ReadBlockData c a reg []).1.transCount = c.transCount + 1 ∧
    (Conn.WriteBlockData c a reg []).2.1 ≠ some errSMBusBlockDataMax ∧
    (Conn.WriteBlockData c a reg []).1.trace =
      c.trace ++ [Event.select a,
        Event.trans (some a) i2cSMBusWrite reg i2cSMBusI2CBlockData [0]] ∧
    (Conn.WriteBlockData c a reg []).1.transCount = c.transCount + 1 := by
  have hif : ¬ ([] : List Nat).length > i2cSMBusBlockMax := by decide
  refine ⟨?_, ?_, ?_, ?_, ?_, ?_⟩
  · unfold Conn.ReadBlockData
    rw [if_neg hif, addr_ok c a hs]
    cases hk : (Kern.ioctlSMBus (afterSelect c a) i2cSMBusRead reg
        i2cSMBusI2CBlockData [0]).2.1 <;>
      simp [hk, errSMBusBlockDataMax]
  · rw [readBlockData_state c a reg [] hif hs, ioctlSMBus_trace]
    simp [afterSelect]
  · rw [readBlockData_state c a reg [] hif hs, ioctlSMBus_transCount]
    simp [afterSelect]
  · unfold Conn.WriteBlockData
    rw [if_neg hif, addr_ok c a hs]
    cases hk : (Kern.ioctlSMBus (afterSelect c a) i2cSMBusWrite reg
        i2cSMBusI2CBlockData [0]).2.1 <;>
      simp [hk, errSMBusBlockDataMax]
  · rw [writeBlockData_state c a reg [] hif hs, ioctlSMBus_trace]
    simp [afterSelect]
  · rw [writeBlockData_state c a reg [] hif hs, ioctlSMBus_transCount]
    simp [afterSelect]

/-- Witness for C8 on a fresh kernel. -/
theorem blockData_empty_buffer_holds :
    (freshKern false false).failSelect = false ∧
    (Conn.ReadBlockData (freshKern false false) 0x50 0 []).2.1 ≠
      some errSMBusBlockDataMax ∧
    (Conn.WriteBlockData (freshKern false false) 0x50 0 []).1.trace =
      (freshKern false false).trace ++ [Event.select 0x50,
        Event.trans (some 0x50) i2cSMBusWrite 0 i2cSMBusI2CBlockData [0]] :=
  ⟨rfl,
   (blockData_empty_buffer (freshKern false false) 0x50 0 rfl).1,
   (blockData_empty_buffer (freshKern false false) 0x50 0 rfl).2.2.2.2.1⟩

/-- C9: when the device file opens but the address-select ioctl inside
`Open(bus, addr)` fails, `Open` returns no handle together with the error,
yet the file it opened stays open: the open-handle count remains
incremented on the error path. -/
theorem open_leaks_handle_on_select_failure (s : Sys) (bus a : Nat)
    (hd : s.devOk = true) (hf : s.failSelect = true) :
    (Open s bus a).2 = none ∧
    (Open s bus a).1.openCount = s.openCount + 1 := by
  constructor <;> simp [Open, Kern.ioctlSlave, freshKern, hd, hf]

/-- Witness for C9 at a concrete environment with one failing select. -/
theorem open_leaks_handle_on_select_failure_holds :
    (Open ⟨true, true, false, 0⟩ 0 0x69).2 = none ∧
    (Open ⟨true, true, false, 0⟩ 0 0x69).1.openCount = 1 :=
  ⟨(open_leaks_handle_on_select_failure ⟨true, true, false, 0⟩ 0 0x69 rfl rfl).1,
   (open_leaks_handle_on_select_failure ⟨true, true, false, 0⟩ 0 0x69 rfl rfl).2⟩

end Smbus
